import Mathlib

/-!
Shallow embedding of the go-memoise cache engine (memoise.go and janitor.go).

Modelling conventions:
* Go `time.Time` is an `Int`; the value 0 is the Go zero time (the "never
  expires" sentinel checked by `IsZero`), and `time.Now()` values are
  positive.  `a.After(b)` is `b < a`, `a.Before(b)` is `a < b`.
* Go `time.Duration` is an `Int`, with 0 playing the role of
  `ValueExpiryNever`.
* A Go `interface{}` payload is `Option Nat` (`none` is a nil interface).
* A Go `error` is `Option Err` (`none` is a nil error); distinct producer
  errors carry a numeric code.
* A callback closure is a function from its invocation index to the
  result of that invocation; each entry carries the number of times its
  callback has been invoked, mirroring closure state.
* The `map[string]*centry` store is an association list; pointer update in
  place is modelled by writing the updated entry back under its key.
* Every operation that in Go calls `time.Now()` takes the corresponding
  instant as an explicit argument.
-/

namespace Memoise

abbrev V := Option Nat

inductive Err where
  | keyNotFound
  | duplicateEntry
  | valueExpired
  | user (code : Nat)
deriving DecidableEq, Repr

inductive CacheType where
  | cacheValueReturnError
  | cacheAll
  | cacheValueReturnStaleOnError
deriving DecidableEq, Repr

inductive RefreshType where
  | refreshOnAccess
  | refreshAsync
  | refreshExplicit
  | noRefresh
deriving DecidableEq, Repr

inductive DuplicateCheck where
  | noDuplicateCheck
  | checkDuplicate
deriving DecidableEq, Repr

/-- ValueExpiryNever sentinel for TTL durations. -/
def valueExpiryNever : Int := 0

/-- ValueExpiryDefault, one minute, in seconds. -/
def valueExpiryDefault : Int := 60

/-- A Call yields payload and error; the argument is the invocation index. -/
abbrev Call := Nat → V × Option Err

/-- The citem payload triple of memoise.go. -/
structure Citem where
  val : V
  err : Option Err
  expires : Int
deriving DecidableEq, Repr

/-- The centry cache slot of memoise.go; `calls` counts callback invocations. -/
structure Centry where
  item : Citem
  cb : Call
  calls : Nat
  ct : CacheType
  rt : RefreshType
  ttl : Int

/-- The vcentry slot of the value cache. -/
structure Vcentry where
  item : Citem
  ttl : Int
deriving DecidableEq, Repr

/-- EntryConfig options: the only mutations the Go options API can perform. -/
inductive EntryConfig where
  | setCacheType (ct : CacheType)
  | setRefreshType (rt : RefreshType)
  | setTTL (ttl : Int)
deriving DecidableEq, Repr

def applyOpt (e : Centry) : EntryConfig → Centry
  | .setCacheType ct => { e with ct := ct }
  | .setRefreshType rt => { e with rt := rt }
  | .setTTL t => { e with ttl := t }

def applyOpts (e : Centry) : List EntryConfig → Centry
  | [] => e
  | o :: rest => applyOpts (applyOpt e o) rest

/-- Association-list model of Go map lookup. -/
def mapGet {α : Type} : List (String × α) → String → Option α
  | [], _ => none
  | (kk, v) :: rest, k => if kk = k then some v else mapGet rest k

/-- Association-list model of Go map delete. -/
def mapDel {α : Type} (m : List (String × α)) (k : String) : List (String × α) :=
  m.filter (fun p => p.1 != k)

/-- Association-list model of Go map assignment. -/
def mapSet {α : Type} (m : List (String × α)) (k : String) (v : α) : List (String × α) :=
  (k, v) :: mapDel m k

/-- The valCache store of memoise.go. -/
structure ValCache where
  entries : List (String × Vcentry)
  defaultTTL : Int
  checkDuplicates : DuplicateCheck

/-- The cache store of memoise.go. -/
structure Cache where
  entries : List (String × Centry)
  vCache : ValCache
  defaultCT : CacheType
  defaultRT : RefreshType
  defaultTTL : Int
  checkDuplicates : DuplicateCheck

/-- newCache of memoise.go: the default cache setup. -/
def newCache : Cache :=
  { entries := []
    vCache :=
      { entries := []
        defaultTTL := valueExpiryDefault
        checkDuplicates := .noDuplicateCheck }
    defaultCT := .cacheValueReturnError
    defaultRT := .refreshOnAccess
    defaultTTL := valueExpiryDefault
    checkDuplicates := .noDuplicateCheck }

/-- cache.newEntry of memoise.go. -/
def newEntry (c : Cache) (cb : Call) : Centry :=
  { item := { val := none, err := none, expires := 0 }
    cb := cb
    calls := 0
    ct := c.defaultCT
    rt := c.defaultRT
    ttl := c.defaultTTL }

/-- centry.initItem of memoise.go: invoke the callback once and build the item. -/
def initItem (e : Centry) (now : Int) : Centry :=
  let exp : Int := if e.ttl = valueExpiryNever then 0 else now + e.ttl
  let r := e.cb e.calls
  { e with item := { val := r.1, err := r.2, expires := exp }, calls := e.calls + 1 }

/-- cache.set of memoise.go (the unexported worker). -/
def Cache.set (c : Cache) (k : String) (cb : Call) (opts : List EntryConfig) (now : Int) :
    (V × Option Err) × Cache :=
  let ent := initItem (applyOpts (newEntry c cb) opts) now
  if ent.item.err = none ∨ ent.ct = CacheType.cacheAll then
    ((ent.item.val, ent.item.err), { c with entries := mapSet c.entries k ent })
  else
    let ent2 := { ent with item := { ent.item with expires := now - 1 } }
    ((ent2.item.val, ent2.item.err), { c with entries := mapSet c.entries k ent2 })

/-- cache.setWithCheck of memoise.go. -/
def Cache.setWithCheck (c : Cache) (k : String) (cb : Call) (opts : List EntryConfig)
    (now : Int) : (V × Option Err) × Cache :=
  if (mapGet c.entries k).isSome then ((none, some Err.duplicateEntry), c)
  else c.set k cb opts now

/-- cache.Set of memoise.go (the exported method). -/
def Cache.Set (c : Cache) (k : String) (cb : Call) (opts : List EntryConfig) (now : Int) :
    (V × Option Err) × Cache :=
  if c.checkDuplicates = DuplicateCheck.checkDuplicate then c.setWithCheck k cb opts now
  else c.set k cb opts now

/-- cache.CAS of memoise.go. -/
def Cache.CAS (c : Cache) (k : String) (cb : Call) (opts : List EntryConfig) (now : Int) :
    (V × Option Err) × Cache :=
  c.setWithCheck k cb opts now

/-- cache.Unset of memoise.go. -/
def Cache.Unset (c : Cache) (k : String) : Cache :=
  { c with entries := mapDel c.entries k }

/-- cache.Has of memoise.go. -/
def Cache.Has (c : Cache) (k : String) : Bool :=
  (mapGet c.entries k).isSome

/-- cache.Refresh of memoise.go: invoke the callback and commit per cacheType. -/
def Cache.Refresh (c : Cache) (k : String) (now : Int) : (V × Option Err) × Cache :=
  match mapGet c.entries k with
  | none => ((none, some Err.keyNotFound), c)
  | some ce =>
    let r := ce.cb ce.calls
    let ce1 := { ce with calls := ce.calls + 1 }
    if r.2 = none ∨ ce1.ct = CacheType.cacheAll then
      let exp := if ce1.ttl ≠ valueExpiryNever then now + ce1.ttl else ce1.item.expires
      let ce2 := { ce1 with item := { val := r.1, err := r.2, expires := exp } }
      ((r.1, r.2), { c with entries := mapSet c.entries k ce2 })
    else if ce1.ct = CacheType.cacheValueReturnStaleOnError then
      ((ce1.item.val, r.2), { c with entries := mapSet c.entries k ce1 })
    else
      ((r.1, r.2), { c with entries := mapSet c.entries k ce1 })

/-- cache.Get of memoise.go; `now` is the instant of the expiry check and
`nowR` the instant of the nested Refresh call (Go calls time.Now() twice). -/
def Cache.Get (c : Cache) (k : String) (now nowR : Int) : (V × Option Err) × Cache :=
  match mapGet c.entries k with
  | none => ((none, some Err.keyNotFound), c)
  | some ce =>
    if ce.item.expires = 0 ∨ now < ce.item.expires then
      ((ce.item.val, ce.item.err), c)
    else if ce.rt = RefreshType.refreshExplicit then
      ((ce.item.val, some Err.valueExpired), c)
    else if ce.item.expires < now ∧ ce.rt = RefreshType.noRefresh then
      ((none, some Err.keyNotFound), c.Unset k)
    else
      c.Refresh k nowR

/-- cache.autoRefresh of memoise.go; the Go version indexes the map directly
(the janitor guarantees the key exists), the `none` branch is unreachable. -/
def Cache.autoRefresh (c : Cache) (k : String) (v : V) (err : Option Err) (now : Int) :
    Cache :=
  match mapGet c.entries k with
  | none => c
  | some ce =>
    if err = none ∨ ce.ct = CacheType.cacheAll then
      let ce2 := { ce with item := { val := v, err := err, expires := now + ce.ttl } }
      { c with entries := mapSet c.entries k ce2 }
    else c

/-- janitor.refreshItem of janitor.go; the Go version receives the entry
pointer `c.entries[k]`, modelled here by reading the entry from the map.
The Bool result records whether a remove-key signal was sent on dch. -/
def refreshItem (c : Cache) (k : String) (now : Int) : Cache × Bool :=
  match mapGet c.entries k with
  | none => (c, false)
  | some e =>
    if now < e.item.expires then (c, false)
    else if e.rt = RefreshType.noRefresh then (c, true)
    else
      let r := e.cb e.calls
      let c1 := { c with entries := mapSet c.entries k { e with calls := e.calls + 1 } }
      (c1.autoRefresh k r.1 r.2 now, false)

/-- valCache.get of memoise.go: lookup plus expiry classification. -/
def ValCache.get (c : ValCache) (k : String) (now : Int) : Option Vcentry × Option Err :=
  match mapGet c.entries k with
  | none => (none, some Err.keyNotFound)
  | some e =>
    if e.item.expires ≠ 0 ∧ e.item.expires < now then (some e, some Err.valueExpired)
    else (some e, none)

/-- valCache.Get of memoise.go; the (none, none) branch is unreachable
because valCache.get never returns a nil entry with a nil error. -/
def ValCache.Get (c : ValCache) (k : String) (now : Int) : (V × Option Err) × ValCache :=
  match c.get k now with
  | (some e, some err) => ((e.item.val, some err), c)
  | (none, some err) => ((none, some err), c)
  | (some e, none) => ((e.item.val, none), c)
  | (none, none) => ((none, none), c)

def applyOptV (e : Vcentry) : EntryConfig → Vcentry
  | .setTTL t => { e with ttl := t }
  | _ => e

def applyOptsV (e : Vcentry) : List EntryConfig → Vcentry
  | [] => e
  | o :: rest => applyOptsV (applyOptV e o) rest

/-- valCache.set of memoise.go (the unexported worker). -/
def ValCache.set (c : ValCache) (k : String) (value : V) (opts : List EntryConfig)
    (now : Int) : ValCache :=
  let e : Vcentry := { item := { val := value, err := none, expires := 0 }, ttl := c.defaultTTL }
  let e1 := applyOptsV e opts
  let e2 :=
    if e1.ttl ≠ valueExpiryNever then { e1 with item := { e1.item with expires := now + e1.ttl } }
    else e1
  { c with entries := mapSet c.entries k e2 }

/-- valCache.CAS of memoise.go; the (none, none) source branch is unreachable. -/
def ValCache.CAS (c : ValCache) (k : String) (value : V) (opts : List EntryConfig)
    (now : Int) : (V × Option Err) × ValCache :=
  match c.get k now with
  | (some e, none) => ((e.item.val, some Err.duplicateEntry), c)
  | (none, none) => ((none, some Err.duplicateEntry), c)
  | (_, some _) =>
    let c1 : ValCache := { c with entries := mapDel c.entries k }
    ((value, none), c1.set k value opts now)

/-- valCache.Has of memoise.go. -/
def ValCache.Has (c : ValCache) (k : String) : Bool :=
  (mapGet c.entries k).isSome

theorem applyOpt_cb (e : Centry) (o : EntryConfig) : (applyOpt e o).cb = e.cb := by
  cases o <;> rfl

theorem applyOpt_calls (e : Centry) (o : EntryConfig) : (applyOpt e o).calls = e.calls := by
  cases o <;> rfl

theorem applyOpt_item (e : Centry) (o : EntryConfig) : (applyOpt e o).item = e.item := by
  cases o <;> rfl

theorem applyOpts_cb (opts : List EntryConfig) (e : Centry) :
    (applyOpts e opts).cb = e.cb := by
  induction opts generalizing e with
  | nil => rfl
  | cons o rest ih => rw [applyOpts, ih, applyOpt_cb]

theorem applyOpts_calls (opts : List EntryConfig) (e : Centry) :
    (applyOpts e opts).calls = e.calls := by
  induction opts generalizing e with
  | nil => rfl
  | cons o rest ih => rw [applyOpts, ih, applyOpt_calls]

theorem applyOpts_item (opts : List EntryConfig) (e : Centry) :
    (applyOpts e opts).item = e.item := by
  induction opts generalizing e with
  | nil => rfl
  | cons o rest ih => rw [applyOpts, ih, applyOpt_item]

theorem mapGet_mapSet_self {α : Type} (m : List (String × α)) (k : String) (v : α) :
    mapGet (mapSet m k v) k = some v := by
  simp [mapSet, mapGet]

theorem set_success_spec
    (c : Cache) (k : String) (cb : Call) (opts : List EntryConfig) (now : Int) (v : V)
    (hcb : cb 0 = (v, none)) :
    ∃ ent, c.set k cb opts now = ((v, none), { c with entries := mapSet c.entries k ent }) ∧
      ent.item = ⟨v, none,
        if (applyOpts (newEntry c cb) opts).ttl = valueExpiryNever then 0
        else now + (applyOpts (newEntry c cb) opts).ttl⟩ ∧
      ent.calls = 1 ∧ ent.ct = (applyOpts (newEntry c cb) opts).ct ∧
      ent.rt = (applyOpts (newEntry c cb) opts).rt := by
  refine ⟨initItem (applyOpts (newEntry c cb) opts) now, ?_, ?_, ?_, rfl, rfl⟩
  · simp [Cache.set, initItem, applyOpts_cb, applyOpts_calls, newEntry, hcb]
  · simp [initItem, applyOpts_cb, applyOpts_calls, newEntry, hcb]
  · simp [initItem, applyOpts_calls, newEntry]

/-- C1: for every key successfully Set with a callback under the default
cache-type, and while the entry is not expired, Get returns the payload Set
returned with a nil error, Get leaves the cache unchanged, and the callback
has run exactly once across Set followed by Get. -/
theorem set_then_get_fresh
    (c : Cache) (k : String) (cb : Call) (opts : List EntryConfig)
    (now now1 nowR : Int) (v : V)
    (hdc : c.checkDuplicates = DuplicateCheck.noDuplicateCheck)
    (_hct : (applyOpts (newEntry c cb) opts).ct = CacheType.cacheValueReturnError)
    (hcb : cb 0 = (v, none))
    (hfresh : (applyOpts (newEntry c cb) opts).ttl = valueExpiryNever ∨
      now1 < now + (applyOpts (newEntry c cb) opts).ttl) :
    (c.Set k cb opts now).1 = (v, none) ∧
    ((c.Set k cb opts now).2.Get k now1 nowR).1 = (v, none) ∧
    ((c.Set k cb opts now).2.Get k now1 nowR).2 = (c.Set k cb opts now).2 ∧
    ∃ ce, mapGet (c.Set k cb opts now).2.entries k = some ce ∧ ce.calls = 1 := by
  obtain ⟨ent, hres, hitem, hcalls1, -, -⟩ := set_success_spec c k cb opts now v hcb
  have hset : c.Set k cb opts now = c.set k cb opts now := by
    simp [Cache.Set, hdc]
  have hlk : mapGet (mapSet c.entries k ent) k = some ent := mapGet_mapSet_self _ _ _
  have hcond : ent.item.expires = 0 ∨ now1 < ent.item.expires := by
    rw [hitem]
    rcases hfresh with h | h
    · left
      simp [h]
    · by_cases h0 : (applyOpts (newEntry c cb) opts).ttl = valueExpiryNever
      · left
        simp [h0]
      · right
        simpa [h0] using h
  have hget : ({ c with entries := mapSet c.entries k ent } : Cache).Get k now1 nowR
      = ((ent.item.val, ent.item.err), { c with entries := mapSet c.entries k ent }) := by
    simp only [Cache.Get, hlk]
    rw [if_pos hcond]
  rw [hset, hres]
  refine ⟨rfl, ?_, ?_, ⟨ent, hlk, hcalls1⟩⟩
  · rw [hget, hitem]
  · rw [hget]

/-- C1 witness: a concrete run of the theorem. -/
theorem set_then_get_fresh_witness :
    ((newCache.Set "k" (fun _ => (some 5, none)) [] 100).1 = (some 5, none)) ∧
    (((newCache.Set "k" (fun _ => (some 5, none)) [] 100).2.Get "k" 150 150).1
      = (some 5, none)) := by
  have h := set_then_get_fresh newCache "k" (fun _ => (some 5, none)) [] 100 150 150
    (some 5) rfl rfl rfl (by right; decide)
  exact ⟨h.1, h.2.1⟩

theorem mapGet_mapDel_self {α : Type} (m : List (String × α)) (k : String) :
    mapGet (mapDel m k) k = none := by
  induction m with
  | nil => rfl
  | cons p rest ih =>
    by_cases h : p.1 = k
    · simpa [mapDel, List.filter_cons, h] using ih
    · simpa [mapDel, List.filter_cons, h, mapGet] using ih

/-- A value cache with no entries and default configuration. -/
def emptyVC : ValCache :=
  { entries := [], defaultTTL := valueExpiryDefault, checkDuplicates := .noDuplicateCheck }

/-- A default-configured cache holding the given entries. -/
def mkCache (es : List (String × Centry)) : Cache :=
  { entries := es
    vCache := emptyVC
    defaultCT := .cacheValueReturnError
    defaultRT := .refreshOnAccess
    defaultTTL := valueExpiryDefault
    checkDuplicates := .noDuplicateCheck }

/-- A NoRefresh entry whose expiry instant is 5, used for the C2 analysis. -/
def entryC2 : Centry :=
  { item := ⟨some 1, none, 5⟩
    cb := fun _ => (some 2, none)
    calls := 0
    ct := .cacheValueReturnError
    rt := .noRefresh
    ttl := 10 }

/-- C2 counterexample: at the instant now = expiresAt = 5 the entry counts as
expired (the freshness test requires now strictly below expiresAt), yet with
refresh-type NoRefresh Get does not evict and does not return ErrKeyNotFound:
it refreshes, returning the new payload, and the key is still present. -/
theorem get_noRefresh_boundary_cex :
    ((mkCache [("k", entryC2)]).Get "k" 5 5).1 = (some 2, none) ∧
    ((mkCache [("k", entryC2)]).Get "k" 5 5).2.Has "k" = true := by
  constructor
  · decide
  · decide

/-- C2 amended: Get on a present expired entry dispatches on the refresh-type:
Explicit returns the stale payload with ErrValueExpired and leaves the cache
unchanged; NoRefresh evicts and returns ErrKeyNotFound only when the expiry is
strictly in the past, a subsequent Has being false; OnAccess, Async, and the
boundary case NoRefresh with expiresAt = now perform a synchronous Refresh and
return its result. -/
theorem get_expired_dispatch
    (c : Cache) (k : String) (now nowR : Int) (ce : Centry)
    (hlk : mapGet c.entries k = some ce)
    (hexp0 : ce.item.expires ≠ 0)
    (hexp : ce.item.expires ≤ now) :
    (ce.rt = RefreshType.refreshExplicit →
      c.Get k now nowR = ((ce.item.val, some Err.valueExpired), c)) ∧
    (ce.rt = RefreshType.noRefresh → ce.item.expires < now →
      c.Get k now nowR = ((none, some Err.keyNotFound), c.Unset k) ∧
        (c.Unset k).Has k = false) ∧
    ((ce.rt = RefreshType.refreshOnAccess ∨ ce.rt = RefreshType.refreshAsync ∨
        (ce.rt = RefreshType.noRefresh ∧ ce.item.expires = now)) →
      c.Get k now nowR = c.Refresh k nowR) := by
  have hvalid : ¬ (ce.item.expires = 0 ∨ now < ce.item.expires) := by
    push_neg
    exact ⟨hexp0, hexp⟩
  refine ⟨?_, ?_, ?_⟩
  · intro hrt
    simp only [Cache.Get, hlk]
    rw [if_neg hvalid, if_pos hrt]
  · intro hrt hlt
    refine ⟨?_, ?_⟩
    · simp only [Cache.Get, hlk]
      rw [if_neg hvalid, if_neg (by simp [hrt]), if_pos ⟨hlt, hrt⟩]
    · simp [Cache.Has, Cache.Unset, mapGet_mapDel_self]
  · intro hrt
    simp only [Cache.Get, hlk]
    rw [if_neg hvalid]
    rcases hrt with h | h | ⟨h, heq⟩
    · rw [if_neg (by simp [h]), if_neg (by simp [h])]
    · rw [if_neg (by simp [h]), if_neg (by simp [h])]
    · rw [if_neg (by simp [h]), if_neg (by simp [heq])]

/-- C2 witness: a concrete run of the amended theorem on the strictly-past
NoRefresh branch. -/
theorem get_expired_dispatch_witness :
    ((mkCache [("k", entryC2)]).Get "k" 10 10).1 = (none, some Err.keyNotFound) ∧
    ((mkCache [("k", entryC2)]).Get "k" 10 10).2.Has "k" = false := by
  have h := get_expired_dispatch (mkCache [("k", entryC2)]) "k" 10 10 entryC2 rfl
    (by decide) (by decide)
  have h2 := h.2.1 rfl (by decide)
  constructor
  · rw [h2.1]
  · rw [h2.1]
    exact h2.2

/-- An entry whose stored payload is 1 and whose callback fails with payload 2,
used for the C3 analysis. -/
def entryC3 : Centry :=
  { item := ⟨some 1, none, 0⟩
    cb := fun _ => (some 2, some (.user 7))
    calls := 0
    ct := .cacheValueReturnError
    rt := .refreshOnAccess
    ttl := 0 }

/-- C3 counterexample: with the default cache-type ReturnErrorUncached and a
failing callback, Refresh returns the payload produced by the failing call
(some 2) together with the new error, not the previously stored payload
(some 1). -/
theorem refresh_default_error_cex :
    ((mkCache [("k", entryC3)]).Refresh "k" 100).1 = (some 2, some (Err.user 7)) ∧
    entryC3.item.val = some 1 ∧
    ((mkCache [("k", entryC3)]).Refresh "k" 100).1.1 ≠ entryC3.item.val := by
  refine ⟨by decide, by decide, by decide⟩

/-- C3 amended: with the default cache-type ReturnErrorUncached, when
the callback invocation of Refresh fails, the stored Item of the entry is left
completely unchanged, and the call returns the payload and error produced by
the failing invocation itself (not the previously stored payload). -/
theorem refresh_default_error
    (c : Cache) (k : String) (now : Int) (ce : Centry) (v2 : V) (e2 : Err)
    (hlk : mapGet c.entries k = some ce)
    (hct : ce.ct = CacheType.cacheValueReturnError)
    (hcb : ce.cb ce.calls = (v2, some e2)) :
    c.Refresh k now = ((v2, some e2),
      { c with entries := mapSet c.entries k { ce with calls := ce.calls + 1 } }) ∧
    ∀ ce2, mapGet (c.Refresh k now).2.entries k = some ce2 → ce2.item = ce.item := by
  have hres : c.Refresh k now = ((v2, some e2),
      { c with entries := mapSet c.entries k { ce with calls := ce.calls + 1 } }) := by
    simp only [Cache.Refresh, hlk]
    rw [hcb]
    rw [if_neg (by simp [hct]), if_neg (by simp [hct])]
  refine ⟨hres, ?_⟩
  intro ce2 h2
  rw [hres] at h2
  rw [mapGet_mapSet_self] at h2
  cases h2
  rfl

/-- C3 witness: a concrete run of the amended theorem. -/
theorem refresh_default_error_witness :
    ((mkCache [("k", entryC3)]).Refresh "k" 100).1 = (some 2, some (Err.user 7)) := by
  have h := refresh_default_error (mkCache [("k", entryC3)]) "k" 100 entryC3
    (some 2) (.user 7) rfl rfl rfl
  rw [h.1]

/-- A ReturnStaleOnError entry whose stored payload is 1 and whose callback
now fails, used for the C4 analysis. -/
def entryC4 : Centry :=
  { item := ⟨some 1, none, 5⟩
    cb := fun _ => (none, some (.user 3))
    calls := 1
    ct := .cacheValueReturnStaleOnError
    rt := .refreshOnAccess
    ttl := 10 }

/-- C4: with cache-type ReturnStaleOnError, a failing Refresh returns the old
stored payload together with the new error and leaves the stored Item (payload
and error) unchanged; moreover Get on an expired entry with refresh-type
OnAccess or Async delegates to exactly that Refresh. -/
theorem refresh_stale_on_error
    (c : Cache) (k : String) (now : Int) (ce : Centry) (v2 : V) (e2 : Err)
    (hlk : mapGet c.entries k = some ce)
    (hct : ce.ct = CacheType.cacheValueReturnStaleOnError)
    (hcb : ce.cb ce.calls = (v2, some e2)) :
    c.Refresh k now = ((ce.item.val, some e2),
      { c with entries := mapSet c.entries k { ce with calls := ce.calls + 1 } }) ∧
    (∀ ce2, mapGet (c.Refresh k now).2.entries k = some ce2 → ce2.item = ce.item) ∧
    (∀ nowG, ce.item.expires ≠ 0 → ce.item.expires ≤ nowG →
      (ce.rt = RefreshType.refreshOnAccess ∨ ce.rt = RefreshType.refreshAsync) →
      c.Get k nowG now = c.Refresh k now) := by
  have hres : c.Refresh k now = ((ce.item.val, some e2),
      { c with entries := mapSet c.entries k { ce with calls := ce.calls + 1 } }) := by
    simp only [Cache.Refresh, hlk]
    rw [hcb]
    rw [if_neg (by simp [hct]), if_pos (by simp [hct])]
  refine ⟨hres, ?_, ?_⟩
  · intro ce2 h2
    rw [hres] at h2
    rw [mapGet_mapSet_self] at h2
    cases h2
    rfl
  · intro nowG hexp0 hexp hrt
    have hvalid : ¬ (ce.item.expires = 0 ∨ nowG < ce.item.expires) := by
      push_neg
      exact ⟨hexp0, hexp⟩
    simp only [Cache.Get, hlk]
    rw [if_neg hvalid]
    rcases hrt with h | h
    · rw [if_neg (by simp [h]), if_neg (by simp [h])]
    · rw [if_neg (by simp [h]), if_neg (by simp [h])]

/-- C4 witness: a concrete run, reaching the stale payload through Get on the
expired entry. -/
theorem refresh_stale_on_error_witness :
    ((mkCache [("k", entryC4)]).Get "k" 10 10).1 = (some 1, some (Err.user 3)) := by
  have h := refresh_stale_on_error (mkCache [("k", entryC4)]) "k" 10 entryC4
    none (.user 3) rfl rfl rfl
  have hg := h.2.2 10 (by decide) (by decide) (Or.inl rfl)
  rw [hg, h.1]
  decide

/-- A value-cache entry storing payload 1 with expiry instant 5, used for the
C5 analysis. -/
def ventryC5 : Vcentry := ⟨⟨some 1, none, 5⟩, 20⟩

/-- A value cache holding the given entries with default configuration. -/
def mkVCache (es : List (String × Vcentry)) : ValCache :=
  { entries := es, defaultTTL := valueExpiryDefault, checkDuplicates := .noDuplicateCheck }

/-- C5 counterexample: CAS on a key that is present (Has is true) but expired
stores the proposed value of the caller and returns it with a nil error, instead of
returning the existing payload with ErrDuplicateEntry. -/
theorem val_cas_expired_cex :
    (mkVCache [("k", ventryC5)]).Has "k" = true ∧
    ((mkVCache [("k", ventryC5)]).CAS "k" (some 9) [] 10).1 = (some 9, none) ∧
    mapGet ((mkVCache [("k", ventryC5)]).CAS "k" (some 9) [] 10).2.entries "k"
      = some ⟨⟨some 9, none, 70⟩, 60⟩ := by
  refine ⟨by decide, by decide, by decide⟩

/-- C5 amended: for every key present in the value cache whose entry is not
expired, CAS returns the currently stored payload together with
ErrDuplicateEntry and leaves the cache unchanged; on a present but expired
entry CAS instead replaces the entry with the proposed value of the caller and
returns it with a nil error. -/
theorem val_cas_present
    (c : ValCache) (k : String) (v : V) (opts : List EntryConfig) (now : Int) (e : Vcentry)
    (hlk : mapGet c.entries k = some e) :
    ((e.item.expires = 0 ∨ now ≤ e.item.expires) →
      c.CAS k v opts now = ((e.item.val, some Err.duplicateEntry), c)) ∧
    (e.item.expires ≠ 0 → e.item.expires < now →
      c.CAS k v opts now
        = ((v, none), ValCache.set { c with entries := mapDel c.entries k } k v opts now)) := by
  constructor
  · intro hfresh
    have hget : c.get k now = (some e, none) := by
      simp only [ValCache.get, hlk]
      rw [if_neg]
      rcases hfresh with h | h
      · simp [h]
      · simp [not_lt.mpr h]
    simp only [ValCache.CAS, hget]
  · intro h0 hlt
    have hget : c.get k now = (some e, some Err.valueExpired) := by
      simp only [ValCache.get, hlk]
      rw [if_pos ⟨h0, hlt⟩]
    simp only [ValCache.CAS, hget]

/-- C5 witness: a concrete run of the amended theorem on the not-expired
branch. -/
theorem val_cas_present_witness :
    ((mkVCache [("k", ventryC5)]).CAS "k" (some 9) [] 3).1
      = (some 1, some Err.duplicateEntry) := by
  have h := (val_cas_present (mkVCache [("k", ventryC5)]) "k" (some 9) [] 3 ventryC5
    rfl).1 (by decide)
  rw [h]
  decide

/-- An entry whose Item carries the never-expiry sentinel, with a never TTL
and refresh-type OnAccess, used for the C6 analysis. -/
def entryC6 : Centry :=
  { item := ⟨some 1, none, 0⟩
    cb := fun _ => (some 7, none)
    calls := 0
    ct := .cacheValueReturnError
    rt := .refreshOnAccess
    ttl := 0 }

/-- C6: the code contradicts the claimed invariant. A janitor sweep step
(refreshItem) on a managed entry whose Item has the never sentinel
(expiresAt = 0, never TTL) treats it as expired, invokes the callback, and
autoRefresh stamps expiresAt = now + ttl = 100, moving it away from never
without any Set or Refresh with an explicit TTL. -/
theorem janitor_sweep_clears_never :
    entryC6.item.expires = 0 ∧ entryC6.ttl = valueExpiryNever ∧
    (mapGet ((refreshItem (mkCache [("k", entryC6)]) "k" 100).1).entries "k").map
      (fun ce => ce.item.expires) = some 100 := by
  refine ⟨by decide, by decide, by decide⟩

theorem set_error_spec
    (c : Cache) (k : String) (cb : Call) (opts : List EntryConfig) (now : Int)
    (v : V) (e : Err)
    (hct : (applyOpts (newEntry c cb) opts).ct ≠ CacheType.cacheAll)
    (hcb : cb 0 = (v, some e)) :
    ∃ ent, c.set k cb opts now = ((v, some e), { c with entries := mapSet c.entries k ent }) ∧
      ent.item = ⟨v, some e, now - 1⟩ ∧ ent.calls = 1 := by
  have hEcb : (applyOpts (newEntry c cb) opts).cb = cb := by
    rw [applyOpts_cb]
    rfl
  have hEcalls : (applyOpts (newEntry c cb) opts).calls = 0 := by
    rw [applyOpts_calls]
    rfl
  have hval : (initItem (applyOpts (newEntry c cb) opts) now).item.val = v := by
    simp [initItem, hEcb, hEcalls, hcb]
  have herr : (initItem (applyOpts (newEntry c cb) opts) now).item.err = some e := by
    simp [initItem, hEcb, hEcalls, hcb]
  have hcond : ¬ ((initItem (applyOpts (newEntry c cb) opts) now).item.err = none ∨
      (initItem (applyOpts (newEntry c cb) opts) now).ct = CacheType.cacheAll) := by
    push_neg
    refine ⟨?_, hct⟩
    rw [herr]
    simp
  refine ⟨{ initItem (applyOpts (newEntry c cb) opts) now with
      item := { (initItem (applyOpts (newEntry c cb) opts) now).item with
        expires := now - 1 } }, ?_, ?_, ?_⟩
  · simp only [Cache.set]
    rw [if_neg hcond]
    simp only [Prod.mk.injEq]
    exact ⟨⟨hval, herr⟩, trivial⟩
  · simp only [Prod.mk.injEq]
    simp [hval, herr]
  · simp [initItem, hEcalls]

/-- C7: a Set whose callback returns an error while the cache-type of the entry is
not CacheAllIncludingErrors still stores the entry (Has is true afterwards)
with an already-past expiresAt of now - 1, and returns exactly the payload
and error produced by this callback invocation. -/
theorem set_error_stored_expired
    (c : Cache) (k : String) (cb : Call) (opts : List EntryConfig) (now : Int)
    (v : V) (e : Err)
    (hdc : c.checkDuplicates = DuplicateCheck.noDuplicateCheck)
    (hct : (applyOpts (newEntry c cb) opts).ct ≠ CacheType.cacheAll)
    (hcb : cb 0 = (v, some e))
    (hnow : 1 < now) :
    (c.Set k cb opts now).1 = (v, some e) ∧
    (c.Set k cb opts now).2.Has k = true ∧
    ∃ ce, mapGet (c.Set k cb opts now).2.entries k = some ce ∧
      ce.item.val = v ∧ ce.item.err = some e ∧ ce.item.expires = now - 1 ∧
      ce.item.expires < now ∧ ce.item.expires ≠ 0 ∧ ce.calls = 1 := by
  obtain ⟨ent, hres, hitem, hcalls1⟩ := set_error_spec c k cb opts now v e hct hcb
  have hset : c.Set k cb opts now = c.set k cb opts now := by
    simp [Cache.Set, hdc]
  have hlk : mapGet (mapSet c.entries k ent) k = some ent := mapGet_mapSet_self _ _ _
  rw [hset, hres]
  refine ⟨rfl, ?_, ent, hlk, ?_, ?_, ?_, ?_, ?_, hcalls1⟩
  · simp [Cache.Has, hlk]
  · rw [hitem]
  · rw [hitem]
  · rw [hitem]
  · rw [hitem]
    show now - 1 < now
    omega
  · rw [hitem]
    show now - 1 ≠ 0
    omega

/-- C7 witness: a concrete run of the theorem. -/
theorem set_error_stored_expired_witness :
    (newCache.Set "k" (fun _ => (some 3, some (Err.user 9))) [] 100).1
      = (some 3, some (Err.user 9)) ∧
    (newCache.Set "k" (fun _ => (some 3, some (Err.user 9))) [] 100).2.Has "k" = true := by
  have h := set_error_stored_expired newCache "k" (fun _ => (some 3, some (.user 9))) []
    100 (some 3) (.user 9) rfl (by decide) rfl (by decide)
  exact ⟨h.1, h.2.1⟩

/-- A plain entry used for the C8 witness. -/
def entryC8 : Centry :=
  { item := ⟨some 1, none, 0⟩
    cb := fun _ => (none, none)
    calls := 1
    ct := .cacheValueReturnError
    rt := .refreshOnAccess
    ttl := 0 }

/-- C8: CAS on an existing key, and Set when the duplicate-check of the store is
on, return a nil payload with ErrDuplicateEntry, leave the whole cache (hence
the stored entry and its policy) unchanged, and never invoke the supplied
callback: the outcome does not depend on it. -/
theorem cas_duplicate_unchanged
    (c : Cache) (k : String) (cb cb2 : Call) (opts : List EntryConfig) (now : Int)
    (hhas : (mapGet c.entries k).isSome = true) :
    c.CAS k cb opts now = ((none, some Err.duplicateEntry), c) ∧
    (c.checkDuplicates = DuplicateCheck.checkDuplicate →
      c.Set k cb opts now = ((none, some Err.duplicateEntry), c)) ∧
    c.CAS k cb opts now = c.CAS k cb2 opts now := by
  have h1 : ∀ cb3 : Call, c.setWithCheck k cb3 opts now
      = ((none, some Err.duplicateEntry), c) := by
    intro cb3
    simp [Cache.setWithCheck, hhas]
  refine ⟨h1 cb, ?_, ?_⟩
  · intro hdc
    simp only [Cache.Set, if_pos hdc]
    exact h1 cb
  · rw [Cache.CAS, Cache.CAS, h1 cb, h1 cb2]

/-- C8 witness: a concrete run of the theorem. -/
theorem cas_duplicate_unchanged_witness :
    ((mkCache [("k", entryC8)]).CAS "k" (fun _ => (some 3, none)) [] 50).1
      = (none, some Err.duplicateEntry) := by
  have h := cas_duplicate_unchanged (mkCache [("k", entryC8)]) "k"
    (fun _ => (some 3, none)) (fun _ => (none, none)) [] 50 rfl
  rw [h.1]

/-- A value-cache entry with expiry instant 5 used for the C10 witness. -/
def ventryC10 : Vcentry := ⟨⟨some 4, none, 5⟩, 10⟩

/-- C10: value-cache Get is read-only: for every key and instant it returns
the cache state unchanged; in particular on a present but expired entry it
returns the stale payload together with ErrValueExpired and the key still
answers true to Has afterwards. -/
theorem val_get_readonly
    (c : ValCache) (k : String) (now : Int) :
    (c.Get k now).2 = c ∧
    (∀ e, mapGet c.entries k = some e → e.item.expires ≠ 0 → e.item.expires < now →
      (c.Get k now).1 = (e.item.val, some Err.valueExpired) ∧
        (c.Get k now).2.Has k = true) := by
  constructor
  · rw [ValCache.Get]
    rcases hg : c.get k now with ⟨oe, oerr⟩
    rcases oe with - | e <;> rcases oerr with - | err <;> rfl
  · intro e hlk h0 hlt
    have hget : c.get k now = (some e, some Err.valueExpired) := by
      simp only [ValCache.get, hlk]
      rw [if_pos ⟨h0, hlt⟩]
    constructor
    · simp only [ValCache.Get, hget]
    · simp only [ValCache.Get, hget]
      simp [ValCache.Has, hlk]

/-- C10 witness: a concrete run of the theorem on an expired entry. -/
theorem val_get_readonly_witness :
    ((mkVCache [("k", ventryC10)]).Get "k" 9).2 = mkVCache [("k", ventryC10)] ∧
    ((mkVCache [("k", ventryC10)]).Get "k" 9).1 = (some 4, some Err.valueExpired) := by
  have h := val_get_readonly (mkVCache [("k", ventryC10)]) "k" 9
  exact ⟨h.1, (h.2 ventryC10 rfl (by decide) (by decide)).1⟩

end Memoise
